import Mathlib

/-!
Verification of the FFA/ICGA PDF image-extraction core (`extract_ffa_only.py`)
and the OCT eye-laterality OCR cascade (`extract_oct_from_path.py`).

The Python code is shallowly embedded: PDF pages are records of text spans
(with bounding boxes) and raster images (with pixel sizes and placement
rectangles); floating-point page coordinates are modelled as rationals;
Python strings are modelled as `List Char` where character-level operations
matter and as `String` elsewhere.  All definitions are executable.
-/

/-- Python's `sub in s` test for strings (contiguous-substring membership),
on character lists.  `containsSub [] s = true`, matching Python. -/
def containsSub (sub : List Char) : List Char → Bool
  | [] => sub.isEmpty
  | c :: rest => sub.isPrefixOf (c :: rest) || containsSub sub rest

/-- Python's `s.find(sub)` (index of the leftmost occurrence), as an
`Option Nat` (`none` for "not found", where Python returns `-1`). -/
def findSub (sub : List Char) : List Char → Option Nat
  | [] => if sub.isEmpty then some 0 else none
  | c :: rest =>
    if sub.isPrefixOf (c :: rest) then some 0
    else (findSub sub rest).map (· + 1)

/-- Python's `s.replace(a, repl)` for a single-character pattern `a`
(all non-overlapping occurrences, scanning left to right). -/
def replaceChar (a : Char) (repl : List Char) : List Char → List Char
  | [] => []
  | c :: rest => if c = a then repl ++ replaceChar a repl rest
                 else c :: replaceChar a repl rest

/-- Python's `s.replace(ab, rs)` for a two-character pattern `[a, b]` and a
two-character replacement `[ra, rb]` (non-overlapping, left to right; after a
match the scan resumes past the replaced pair). -/
def replace2 (a b ra rb : Char) : List Char → List Char
  | c :: d :: rest =>
    if c = a ∧ d = b then ra :: rb :: replace2 a b ra rb rest
    else c :: replace2 a b ra rb (d :: rest)
  | s => s

/-- Python's `str.upper()` restricted to ASCII case mapping; every text the
code uppercases is ASCII-plus-CJK, and CJK characters are caseless. -/
def upperChars (s : List Char) : List Char := s.map Char.toUpper

/-- The minimum of a list of positions, Python's `min(...)` on a possibly
empty list of `Nat` made total with `Option`. -/
def minPos : List Nat → Option Nat
  | [] => none
  | p :: rest =>
    match minPos rest with
    | none => some p
    | some q => some (min p q)

/-- Modality verdict strings of `analyze_pdf_info`:
`'FFA' | 'ICGA' | 'IR' | 'FFA+IR' | 'MIXED' | 'UNKNOWN'`. -/
inductive PdfType where
  | FFA
  | ICGA
  | IR
  | FFA_IR
  | MIXED
  | UNKNOWN
deriving DecidableEq

/-- Eye verdict strings of `analyze_pdf_info`:
`'右眼(OD)' | '左眼(OS)' | '未知'`. -/
inductive EyeStr where
  | od
  | os
  | unknown
deriving DecidableEq

/-- The data `analyze_pdf_info` reads from page 1 of the PDF: the keyword
tallies it computes from `page.get_text()` (`fa_count`, `icga_count`,
`ir_count` at lines 40-50 of `extract_ffa_only.py`), the occurrence-position
lists of right-eye/left-eye keywords (lines 58-83), the explicit
"EYE SELECTED" flag (line 100), and the brightness-fallback inputs (the
number of embedded images on page 1 and the mean pixel brightness of the
third one, lines 135-149). -/
structure ClassifierInput where
  fa_count : Nat
  icga_count : Nat
  ir_count : Nat
  rightPositions : List Nat
  leftPositions : List Nat
  eye_selected_label : Bool
  page0ImageCount : Nat
  thirdImageBrightness : ℚ
deriving DecidableEq

/-- The dictionary `analyze_pdf_info` returns (keyword branch, lines 122-132;
the brightness-fallback branch, lines 155-162, omits the count keys, which
readers then default to `0` via `dict.get(..., 0)`, so it is modelled with
count fields `0`). -/
structure PdfInfo where
  type : PdfType
  eye : EyeStr
  has_ffa : Bool
  has_icga : Bool
  has_ir : Bool
  fa_count : Nat
  icga_count : Nat
  ir_count : Nat
  eye_selected_label : Bool
deriving DecidableEq

/-- Eye determination from keyword positions, `analyze_pdf_info` lines 85-98:
right only ⇒ OD, left only ⇒ OS, both ⇒ the earlier first occurrence wins,
neither ⇒ unknown. -/
def determineEye (rightPositions leftPositions : List Nat) : EyeStr :=
  let has_od := !rightPositions.isEmpty
  let has_os := !leftPositions.isEmpty
  if has_od && !has_os then .od
  else if has_os && !has_od then .os
  else if has_od && has_os then
    match minPos rightPositions, minPos leftPositions with
    | some od_pos, some os_pos => if od_pos < os_pos then .od else .os
    | _, _ => .unknown
  else .unknown

/-- `analyze_pdf_info` (lines 17-166 of `extract_ffa_only.py`): classify the
document from the page-1 keyword tallies; if no keyword count is positive,
fall back to the mean brightness of the third embedded image (below the
threshold ⇒ FFA, otherwise UNKNOWN), and return `none` ("unclassifiable")
when fewer than three images exist. -/
def analyze_pdf_info (inp : ClassifierInput) (brightness_threshold : ℚ) :
    Option PdfInfo :=
  let has_ffa := inp.fa_count > 0
  let has_icga := inp.icga_count > 0
  let has_ir := inp.ir_count > 0
  let eye := determineEye inp.rightPositions inp.leftPositions
  if has_ffa ∨ has_icga ∨ has_ir then
    let pdf_type : PdfType :=
      if has_icga ∧ inp.icga_count > inp.fa_count then .ICGA
      else if has_ffa ∧ has_ir then .FFA_IR
      else if has_ffa then .FFA
      else if has_ir then .IR
      else .MIXED
    some {
      type := pdf_type
      eye := eye
      has_ffa := has_ffa
      has_icga := has_icga
      has_ir := has_ir
      fa_count := inp.fa_count
      icga_count := inp.icga_count
      ir_count := inp.ir_count
      eye_selected_label := inp.eye_selected_label
    }
  else if inp.page0ImageCount < 3 then none
  else
    let is_ffa := inp.thirdImageBrightness < brightness_threshold
    some {
      type := if is_ffa then .FFA else .UNKNOWN
      eye := .unknown
      has_ffa := is_ffa
      has_icga := false
      has_ir := false
      fa_count := 0
      icga_count := 0
      ir_count := 0
      eye_selected_label := inp.eye_selected_label
    }

/-- The pdf-info criterion of `is_fa_icga_combined_image` (lines 188-197):
both FA and ICGA keywords were seen, with counts differing by at most 1. -/
def combinedPdfBranch (info : PdfInfo) : Bool :=
  info.has_ffa && info.has_icga &&
  decide (info.fa_count > 0) && decide (info.icga_count > 0) &&
  decide (((info.fa_count : ℤ) - (info.icga_count : ℤ)).natAbs ≤ 1)

/-- `is_fa_icga_combined_image` (lines 168-202): a frame of pixel size
`width × height` is a fused FA+ICGA composite when it is wide enough
(`width ≥ 1000`) and either its aspect ratio lies in `[1.8, 2.2]` or the
classifier found both FA and ICGA keywords with near-equal counts
(difference at most 1). -/
def is_fa_icga_combined_image (width height : Nat) (pdf_info : Option PdfInfo) :
    Bool :=
  let aspect_ratio : ℚ := if height > 0 then (width : ℚ) / (height : ℚ) else 0
  let is_combined_by_size :=
    decide ((1.8 : ℚ) ≤ aspect_ratio) && decide (aspect_ratio ≤ (2.2 : ℚ))
  let is_combined_by_pdf_info :=
    match pdf_info with
    | none => false
    | some info => combinedPdfBranch info
  let is_large_enough := decide (width ≥ 1000)
  (is_combined_by_size || is_combined_by_pdf_info) && is_large_enough

/-- `crop_fa_from_combined_image` (lines 204-217): the crop box
`(0, 0, width // 2, height)` passed to `PIL.Image.crop` — the left half. -/
def crop_fa_box (width height : Nat) : Nat × Nat × Nat × Nat :=
  (0, 0, width / 2, height)

/-- Pixel size of the image returned by `crop_fa_from_combined_image`:
cropping to `(0, 0, width // 2, height)` yields a `width // 2 × height`
image. -/
def crop_fa_size (width height : Nat) : Nat × Nat :=
  (width / 2, height)

/-- Placement rectangle of an image on a page (PDF points, modelled as
rationals). -/
structure Rect where
  x0 : ℚ
  y0 : ℚ
  x1 : ℚ
  y1 : ℚ
deriving DecidableEq

/-- One text span, as produced by `page.get_text("dict")` traversal
(lines 285-293): the stripped nonempty text plus `bbox[0]`/`bbox[1]`. -/
structure Span where
  text : String
  x : ℚ
  y : ℚ
deriving DecidableEq

/-- One embedded raster image: pixel size, encoded format, and all placement
rectangles returned by `page.get_image_rects(xref)`. -/
structure PageImage where
  width : Nat
  height : Nat
  ext : String
  rects : List Rect
deriving DecidableEq

/-- One PDF page as seen by `extract_ffa_images_from_pdf`: the page rectangle
(modelled with origin `(0,0)`), its text spans in traversal order, and its
embedded images in `page.get_images()` order. -/
structure Page where
  width : ℚ
  height : ℚ
  spans : List Span
  images : List PageImage
deriving DecidableEq

/-- A whole document: the classifier's page-1 reading plus the per-page
layout data the extraction loop consumes. -/
structure PdfDoc where
  cls : ClassifierInput
  pages : List Page
deriving DecidableEq

/-- Matcher for the timestamp regex `\((\d{2}:\d{2}\.\d{3})\)` anchored at
the head of the list; returns the captured group `\d{2}:\d{2}\.\d{3}`. -/
def tsMatchAt : List Char → Option (List Char)
  | '(' :: d1 :: d2 :: ':' :: d3 :: d4 :: '.' :: d5 :: d6 :: d7 :: ')' :: _ =>
    if d1.isDigit ∧ d2.isDigit ∧ d3.isDigit ∧ d4.isDigit ∧
       d5.isDigit ∧ d6.isDigit ∧ d7.isDigit then
      some [d1, d2, ':', d3, d4, '.', d5, d6, d7]
    else none
  | _ => none

/-- `re.search(r"\((\d{2}:\d{2}\.\d{3})\)", s)`: the leftmost match's
captured group, scanning left to right. -/
def searchTs : List Char → Option (List Char)
  | [] => none
  | c :: rest =>
    match tsMatchAt (c :: rest) with
    | some g => some g
    | none => searchTs rest

/-- Strength of a per-column eye signal: `"weak" | "strong" | "default"`. -/
inductive Strength where
  | weak
  | strong
  | defaulted
deriving DecidableEq

/-- One `eye_by_column` entry (`{"eye": ..., "strength": ...}`). -/
structure EyeEntry where
  eye : EyeStr
  strength : Strength
deriving DecidableEq

/-- The `eye_by_column` defaultdict restricted to its only possible keys,
columns 1 and 2 (both initialised to `{"eye": 未知, "strength": "weak"}`). -/
structure EyeCols where
  col1 : EyeEntry
  col2 : EyeEntry
deriving DecidableEq

/-- Read a column entry (columns are always 1 or 2). -/
def getCol (cols : EyeCols) (column : Nat) : EyeEntry :=
  if column = 1 then cols.col1 else cols.col2

/-- Write a column entry. -/
def setCol (cols : EyeCols) (column : Nat) (e : EyeEntry) : EyeCols :=
  if column = 1 then { cols with col1 := e } else { cols with col2 := e }

/-- `update_eye` (lines 310-313): strong signals always overwrite, weaker
signals only overwrite non-strong entries. -/
def update_eye (cols : EyeCols) (column : Nat) (eye_label : EyeStr)
    (strength : Strength) : EyeCols :=
  let current := getCol cols column
  if strength = .strong ∨ current.strength ≠ .strong then
    setCol cols column ⟨eye_label, strength⟩
  else cols

/-- Accumulated result of the span scan of one page (lines 279-323):
timestamp spans, label spans, and the per-column eye signals. -/
structure PageScan where
  timestamp_entries : List Span
  label_blocks : List Span
  eye_by_column : EyeCols
deriving DecidableEq

/-- Processing of one text span (lines 285-323): classify it as a timestamp
entry and/or a label block, and update the per-column eye signals.  Empty
(post-strip) spans are skipped. -/
def scanSpan (page_mid_x : ℚ) (st : PageScan) (span : Span) : PageScan :=
  let text_content := span.text.toList
  if text_content.isEmpty then st
  else
    let text_upper := upperChars text_content
    let st :=
      if containsSub ("TIMESTAMP".toList) text_upper
         || (searchTs text_content).isSome then
        { st with timestamp_entries := st.timestamp_entries ++ [span] }
      else st
    let st :=
      if containsSub ("FA".toList) text_upper
         || containsSub ("IR".toList) text_upper
         || containsSub ("ICGA".toList) text_upper then
        { st with label_blocks := st.label_blocks ++ [span] }
      else st
    let column_num := if span.x < page_mid_x then 1 else 2
    let cols := st.eye_by_column
    let cols :=
      if containsSub ("RIGHT EYE SELECTED".toList) text_upper
         || containsSub ("RIGHT EYE".toList) text_upper then
        update_eye cols column_num .od .strong
      else if upperChars text_content = ("OD".toList)
              || containsSub ("右眼".toList) text_content then
        update_eye cols column_num .od .weak
      else cols
    let cols :=
      if containsSub ("LEFT EYE SELECTED".toList) text_upper
         || containsSub ("LEFT EYE".toList) text_upper then
        update_eye cols column_num .os .strong
      else if upperChars text_content = ("OS".toList)
              || containsSub ("左眼".toList) text_content then
        update_eye cols column_num .os .weak
      else cols
    { st with eye_by_column := cols }

/-- `normalize_eye` (lines 325-330). -/
def normalize_eye : EyeStr → String
  | .od => "OD"
  | .os => "OS"
  | .unknown => "unknown"

/-- One conjunct of `has_strong_conflict` (lines 336-339): a column entry is
a conflicting strong signal when it is strong and names a definite eye other
than the document-level one. -/
def eyeConflicts (pdfEye : EyeStr) (e : EyeEntry) : Bool :=
  e.strength = .strong && e.eye ≠ .unknown && e.eye ≠ pdfEye

/-- Document-level eye defaulting (lines 334-351): when the whole-document
verdict is a definite eye and no column has a conflicting strong signal,
every non-strong column is defaulted to the document-level eye.  (The
`else` branch of the Python code, lines 345-351, is unreachable: it requires
`normalize_eye(pdf_info['eye'])` to be `unknown` while `pdf_info['eye']` is a
definite eye string.) -/
def applyDocEyeDefault (info : PdfInfo) (cols : EyeCols) : EyeCols :=
  match info.eye with
  | .unknown => cols
  | pdfEye =>
    let has_strong_conflict :=
      eyeConflicts pdfEye cols.col1 || eyeConflicts pdfEye cols.col2
    if has_strong_conflict then cols
    else
      let d : EyeEntry := ⟨pdfEye, .defaulted⟩
      { col1 := if cols.col1.strength ≠ .strong then d else cols.col1
        col2 := if cols.col2.strength ≠ .strong then d else cols.col2 }

/-- Column of an image placement rectangle (line 380): rectangle horizontal
midpoint versus the page horizontal midpoint. -/
def stripeColumnOf (page_mid_x : ℚ) (r : Rect) : Nat :=
  if (r.x0 + r.x1) / 2 < page_mid_x then 1 else 2

/-- Append a stripe rectangle to its column's bucket, creating the bucket on
first touch (insertion-ordered, like a Python `defaultdict`). -/
def insertStripe (key : Nat) (r : Rect) :
    List (Nat × List Rect) → List (Nat × List Rect)
  | [] => [(key, [r])]
  | (k, rs) :: rest =>
    if k = key then (k, rs ++ [r]) :: rest
    else (k, rs) :: insertStripe key r rest

/-- A standard (non-stripe) frame candidate (lines 388-394). -/
structure StandardCandidate where
  rect : Rect
  width : Nat
  height : Nat
  ext : String
  column : Nat
deriving DecidableEq

/-- The frame-partitioning state of one page: stripe buckets by column and
the standard candidates in discovery order. -/
structure Candidates where
  stripes_by_column : List (Nat × List Rect)
  standard_candidates : List StandardCandidate
deriving DecidableEq

/-- Processing of one placement rectangle of one image (lines 379-394):
stripe candidates (`width > 1000 ∧ height < 120`) go to their column's
bucket, other sufficiently large frames become standard candidates. -/
def collectRect (page_mid_x : ℚ) (min_width min_height : Nat)
    (img : PageImage) (acc : Candidates) (r : Rect) : Candidates :=
  if decide (img.width > 1000) && decide (img.height < 120) then
    { acc with stripes_by_column :=
        insertStripe (stripeColumnOf page_mid_x r) r acc.stripes_by_column }
  else if img.width ≥ min_width ∧ img.height ≥ min_height then
    { acc with standard_candidates :=
        acc.standard_candidates
          ++ [⟨r, img.width, img.height, img.ext, stripeColumnOf page_mid_x r⟩] }
  else acc

/-- The image loop of one page (lines 356-396): partition every placement of
every image, with the size thresholds relaxed when an explicit
"EYE SELECTED" label was detected (lines 370-375). -/
def collectCandidates (page_mid_x : ℚ) (eye_selected : Bool)
    (images : List PageImage) : Candidates :=
  images.foldl
    (fun acc img => img.rects.foldl
      (collectRect page_mid_x (if eye_selected then 200 else 300)
        (if eye_selected then 180 else 300) img) acc)
    ⟨[], []⟩

/-- Stable insertion into a y0-sorted list: the new element goes before the
first element whose `y0` is not smaller.  Folding this over a list from the
right reproduces Python's stable `sorted(..., key=lambda item: item.y0)`. -/
def insertByY0 (x : Rect) : List Rect → List Rect
  | [] => [x]
  | y :: ys => if y.y0 < x.y0 then y :: insertByY0 x ys else x :: y :: ys

/-- `sorted(rect_list, key=lambda item: item["rect"].y0)` (line 463): the
unique stable sort by `y0`. -/
def sortByY0 (l : List Rect) : List Rect := l.foldr insertByY0 []

/-- Inner loop of the grouping pass (lines 466-473): walking the sorted list,
a gap of more than 10 between consecutive top edges starts a new group. -/
def groupStripesAux (prev : Rect) (current_group : List Rect) :
    List Rect → List (List Rect)
  | [] => [current_group]
  | item :: rest =>
    if item.y0 - prev.y0 > 10 then
      current_group :: groupStripesAux item [item] rest
    else
      groupStripesAux item (current_group ++ [item]) rest

/-- Grouping of a sorted stripe list (lines 465-473). -/
def groupStripes : List Rect → List (List Rect)
  | [] => []
  | first :: rest => groupStripesAux first [first] rest

/-- Column of a timestamp span (line 505). -/
def tsColumnOf (page_mid_x : ℚ) (s : Span) : Nat :=
  if s.x < page_mid_x then 1 else 2

/-- Loop body of the nearest-timestamp search (lines 500-513), threading the
running minimum distance and the best timestamp string so far.  Note that
`min_time_distance` is lowered by every same-column timestamp entry, but the
timestamp string is only replaced when the entry's text actually matches the
`(MM:SS.mmm)` pattern. -/
def closestTimestampAux (page_mid_x : ℚ) (col_num : Nat) (group_center_y : ℚ) :
    List Span → Option ℚ → String → String
  | [], _, closest => closest
  | ts :: rest, min_dist, closest =>
    if tsColumnOf page_mid_x ts ≠ col_num then
      closestTimestampAux page_mid_x col_num group_center_y rest min_dist closest
    else
      let dist := |ts.y - group_center_y|
      let improves :=
        match min_dist with
        | none => true
        | some d => decide (dist < d)
      if improves then
        match searchTs ts.text.toList with
        | some g =>
          closestTimestampAux page_mid_x col_num group_center_y rest (some dist)
            (String.mk (replaceChar ':' ['-'] g))
        | none =>
          closestTimestampAux page_mid_x col_num group_center_y rest (some dist) closest
      else
        closestTimestampAux page_mid_x col_num group_center_y rest min_dist closest

/-- The nearest-timestamp search of one stripe group (lines 500-513),
starting from `"no-time"` and an infinite minimum distance. -/
def closestTimestamp (page_mid_x : ℚ) (col_num : Nat) (group_center_y : ℚ)
    (entries : List Span) : String :=
  closestTimestampAux page_mid_x col_num group_center_y entries none "no-time"

/-- Loop body of the nearest-label search for standard frames
(lines 407-416): among labels within vertical distance 60 of the frame's
top-left corner, keep the one with the smallest horizontal distance
(first wins on ties). -/
def nearestLabelAux (img_x img_y : ℚ) : List Span → Option ℚ → String → String
  | [], _, label => label
  | lb :: rest, min_distance, label =>
    let y_distance := |lb.y - img_y|
    let x_distance := |lb.x - img_x|
    let improves :=
      decide (y_distance < 60) &&
      (match min_distance with
       | none => true
       | some d => decide (x_distance < d))
    if improves then nearestLabelAux img_x img_y rest (some x_distance) lb.text
    else nearestLabelAux img_x img_y rest min_distance label

/-- The nearest-label search (lines 404-416). -/
def nearestLabel (label_blocks : List Span) (img_x img_y : ℚ) : String :=
  nearestLabelAux img_x img_y label_blocks none ""

/-- Python's `\w` character class, as used by `re.sub(r'[^\w\-_\.\:]', '_')`
on label text (line 421); the non-ASCII range is approximated as word
characters (all non-ASCII label characters in this report corpus are CJK
word characters). -/
def isWordChar (c : Char) : Bool := c.isAlphanum || c = '_' || c.val ≥ 128

/-- Label sanitisation (lines 418-421): space to underscore, degree sign to
`deg`, brackets removed, and every character outside `[\w\-_.:]` replaced by
an underscore.  The empty label stays empty. -/
def cleanLabel (label : String) : String :=
  if label = "" then ""
  else
    let l1 := replaceChar ' ' ['_'] label.toList
    let l2 := replaceChar '°' ("deg".toList) l1
    let l3 := replaceChar '[' [] l2
    let l4 := replaceChar ']' [] l3
    String.mk (l4.map (fun c =>
      if isWordChar c || c ∈ ['-', '_', '.', ':'] then c else '_'))

/-- Label rewriting for combined frames (lines 431-436): ensure the label
names FA, prefixing `FA_` or substituting `FA` outright. -/
def combinedAdjustLabel (label_clean : String) : String :=
  if label_clean ≠ "" then
    if !containsSub ("FA".toList) (upperChars label_clean.toList) then
      "FA_" ++ label_clean
    else label_clean
  else "FA"

/-- Output name of a standard frame (lines 440-445):
`<eye>_pdf<i>_page<p>_<label>[_combine].<ext>` when a label was found, else
`<eye>_pdf<i>_page<p>_img<n>[_combine].<ext>`. -/
def standardOutputName (eye_str : String) (pdf_index page_num : Nat)
    (label_clean : String) (is_combined : Bool) (next_index : Nat)
    (ext : String) : String :=
  let combine_suffix := if is_combined then "_combine" else ""
  if label_clean ≠ "" then
    eye_str ++ "_pdf" ++ toString pdf_index ++ "_page" ++ toString (page_num + 1)
      ++ "_" ++ label_clean ++ combine_suffix ++ "." ++ ext
  else
    eye_str ++ "_pdf" ++ toString pdf_index ++ "_page" ++ toString (page_num + 1)
      ++ "_img" ++ toString next_index ++ combine_suffix ++ "." ++ ext

/-- Emission of one standard candidate (lines 401-457), threading the running
image counter and the list of emitted file names. -/
def emitStandard (info : PdfInfo) (pdf_index page_num : Nat)
    (label_blocks : List Span) (cols : EyeCols)
    (state : Nat × List String) (candidate : StandardCandidate) :
    Nat × List String :=
  let total_images := state.1
  let outputs := state.2
  let label := nearestLabel label_blocks candidate.rect.x0 candidate.rect.y0
  let label_clean := cleanLabel label
  let eye_str := normalize_eye (getCol cols candidate.column).eye
  let is_combined := is_fa_icga_combined_image candidate.width candidate.height (some info)
  let label_final := if is_combined then combinedAdjustLabel label_clean else label_clean
  let output_name :=
    standardOutputName eye_str pdf_index page_num label_final is_combined
      (total_images + 1) candidate.ext
  (total_images + 1, outputs ++ [output_name])

/-- Minimum of `f` over a nonempty group (Python `min(...)` over a nonempty
generator, lines 476-479). -/
def listMinQ (f : Rect → ℚ) (head : Rect) (rest : List Rect) : ℚ :=
  rest.foldl (fun m r => min m (f r)) (f head)

/-- Maximum of `f` over a nonempty group. -/
def listMaxQ (f : Rect → ℚ) (head : Rect) (rest : List Rect) : ℚ :=
  rest.foldl (fun m r => max m (f r)) (f head)

/-- Emission of one stripe group (lines 475-532): union bounding box, 1.5pt
padding clamped to the page, zoom `clamp(1000/clip_width, 2, 4)`, re-render
(the rasteriser's pixel size is modelled as the ceiling of the scaled clip
size), combined-frame re-check, nearest same-column timestamp, and the
`<eye>_pdf<i>_page<p>_col<c>_img<g>_<ts>[_combine].png` name. -/
def emitStripeGroup (info : PdfInfo) (pdf_index page_num : Nat)
    (page_width page_height page_mid_x : ℚ) (timestamp_entries : List Span)
    (eye_str : String) (col_num idx_in_col : Nat)
    (state : Nat × List String) (group : List Rect) : Nat × List String :=
  match group with
  | [] => state
  | g0 :: grest =>
    let total_images := state.1
    let outputs := state.2
    let min_x := listMinQ (fun r => r.x0) g0 grest
    let max_x := listMaxQ (fun r => r.x1) g0 grest
    let min_y := listMinQ (fun r => r.y0) g0 grest
    let max_y := listMaxQ (fun r => r.y1) g0 grest
    let pad : ℚ := 1.5
    let cx0 := max 0 (min_x - pad)
    let cy0 := max 0 (min_y - pad)
    let cx1 := min page_width (max_x + pad)
    let cy1 := min page_height (max_y + pad)
    let clip_width := cx1 - cx0
    let clip_height := cy1 - cy0
    let zoom := max 2 (min 4 (1000 / clip_width))
    let pix_width := Int.toNat ⌈zoom * clip_width⌉
    let pix_height := Int.toNat ⌈zoom * clip_height⌉
    let is_combined := is_fa_icga_combined_image pix_width pix_height (some info)
    let group_center_y := (min_y + max_y) / 2
    let ts := closestTimestamp page_mid_x col_num group_center_y timestamp_entries
    let combine_suffix := if is_combined then "_combine" else ""
    let output_name :=
      eye_str ++ "_pdf" ++ toString pdf_index ++ "_page" ++ toString (page_num + 1)
        ++ "_col" ++ toString col_num ++ "_img" ++ toString idx_in_col
        ++ "_" ++ ts ++ combine_suffix ++ ".png"
    (total_images + 1, outputs ++ [output_name])

/-- `enumerate(groups, start=1)` over the groups of one column
(lines 475-532). -/
def emitStripeGroups (info : PdfInfo) (pdf_index page_num : Nat)
    (page_width page_height page_mid_x : ℚ) (timestamp_entries : List Span)
    (eye_str : String) (col_num : Nat) (idx_in_col : Nat)
    (state : Nat × List String) : List (List Rect) → Nat × List String
  | [] => state
  | g :: rest =>
    emitStripeGroups info pdf_index page_num page_width page_height page_mid_x
      timestamp_entries eye_str col_num (idx_in_col + 1)
      (emitStripeGroup info pdf_index page_num page_width page_height page_mid_x
        timestamp_entries eye_str col_num idx_in_col state g)
      rest

/-- The per-column stripe loop (lines 460-532), iterating the buckets in
defaultdict insertion order and skipping empty buckets. -/
def emitStripeColumns (info : PdfInfo) (pdf_index page_num : Nat)
    (page_width page_height page_mid_x : ℚ) (timestamp_entries : List Span)
    (cols : EyeCols) (state : Nat × List String) :
    List (Nat × List Rect) → Nat × List String
  | [] => state
  | (col_num, rect_list) :: rest =>
    let state :=
      if rect_list.isEmpty then state
      else
        let rect_list_sorted := sortByY0 rect_list
        let groups := groupStripes rect_list_sorted
        let eye_str := normalize_eye (getCol cols col_num).eye
        emitStripeGroups info pdf_index page_num page_width page_height page_mid_x
          timestamp_entries eye_str col_num 1 state groups
    emitStripeColumns info pdf_index page_num page_width page_height page_mid_x
      timestamp_entries cols state rest

/-- Processing of one page (lines 273-532): scan the spans, resolve the
per-column eyes, partition frames; emit standard frames only when the page
has no stripe candidates, then emit the stripe groups. -/
def processPage (info : PdfInfo) (pdf_index : Nat) (state : Nat × List String)
    (page_num : Nat) (page : Page) : Nat × List String :=
  let page_mid_x := page.width / 2
  let scan := page.spans.foldl (scanSpan page_mid_x)
    ⟨[], [], ⟨⟨.unknown, .weak⟩, ⟨.unknown, .weak⟩⟩⟩
  let cols := applyDocEyeDefault info scan.eye_by_column
  let cands := collectCandidates page_mid_x info.eye_selected_label page.images
  let has_stripes := cands.stripes_by_column.any (fun p => !p.2.isEmpty)
  let state :=
    if !has_stripes then
      cands.standard_candidates.foldl
        (emitStandard info pdf_index page_num scan.label_blocks cols) state
    else state
  emitStripeColumns info pdf_index page_num page.width page.height page_mid_x
    scan.timestamp_entries cols state cands.stripes_by_column

/-- The page loop (line 273), threading the running counter and outputs. -/
def processPages (info : PdfInfo) (pdf_index : Nat) :
    Nat → Nat × List String → List Page → Nat × List String
  | _, state, [] => state
  | page_num, state, p :: rest =>
    processPages info pdf_index (page_num + 1) (processPage info pdf_index state page_num p) rest

/-- Status strings of the result dictionaries of
`extract_ffa_images_from_pdf`. -/
inductive ExtractStatus where
  | success
  | skipped
  | error
deriving DecidableEq

/-- The observable result of `extract_ffa_images_from_pdf`: status, modality
verdict (absent on `error`), eye verdict, image count, and the emitted file
names in emission order. -/
structure ExtractResult where
  status : ExtractStatus
  type : Option PdfType
  eye : EyeStr
  num_images : Nat
  outputs : List String
deriving DecidableEq

/-- `extract_ffa_images_from_pdf` (lines 219-544): classify, apply the skip
policies (ICGA; pure IR unless `extract_ir`; no FFA content, no requested IR
content and no explicit eye-selection label), then process every page. -/
def extract_ffa_images_from_pdf (doc : PdfDoc) (brightness_threshold : ℚ)
    (extract_ir : Bool) (pdf_index : Nat) : ExtractResult :=
  match analyze_pdf_info doc.cls brightness_threshold with
  | none => { status := .error, type := none, eye := .unknown, num_images := 0, outputs := [] }
  | some pdf_info =>
    if pdf_info.type = .ICGA then
      { status := .skipped, type := some .ICGA, eye := pdf_info.eye, num_images := 0, outputs := [] }
    else if pdf_info.type = .IR ∧ ¬extract_ir then
      { status := .skipped, type := some .IR, eye := pdf_info.eye, num_images := 0, outputs := [] }
    else if ¬pdf_info.has_ffa ∧ ¬(extract_ir ∧ pdf_info.has_ir)
            ∧ ¬pdf_info.eye_selected_label then
      { status := .skipped, type := some pdf_info.type, eye := pdf_info.eye,
        num_images := 0, outputs := [] }
    else
      let res := processPages pdf_info pdf_index 0 (0, []) doc.pages
      { status := .success, type := some pdf_info.type, eye := pdf_info.eye,
        num_images := res.1, outputs := res.2 }

/-- Python's `a < b` where either side may be `float('inf')` (modelled as
`none`): anything is smaller than infinity, infinity is smaller than
nothing. -/
def posLt : Option Nat → Option Nat → Bool
  | some a, some b => decide (a < b)
  | some _, none => true
  | none, _ => false

/-- OCR misread normalisation of `detect_eye_from_oct_image`
(`extract_oct_from_path.py` lines 103-104):
`0S→OS`, `0D→OD`, `QS→OS`, `QD→OD`, applied in that order. -/
def normalizeOcrText (t : List Char) : List Char :=
  replace2 'Q' 'D' 'O' 'D'
    (replace2 'Q' 'S' 'O' 'S'
      (replace2 '0' 'D' 'O' 'D'
        (replace2 '0' 'S' 'O' 'S' t)))

/-- `od_pos` of the tie-break (line 115): the position of `OD` when present,
else of `RIGHT` when present, else infinity. -/
def odPosIn (t : List Char) : Option Nat :=
  if containsSub ("OD".toList) t then findSub ("OD".toList) t
  else if containsSub ("RIGHT".toList) t then findSub ("RIGHT".toList) t
  else none

/-- `os_pos` of the tie-break (line 116). -/
def osPosIn (t : List Char) : Option Nat :=
  if containsSub ("OS".toList) t then findSub ("OS".toList) t
  else if containsSub ("LEFT".toList) t then findSub ("LEFT".toList) t
  else none

/-- The per-region decision rule of `detect_eye_from_oct_image`
(lines 99-117), applied to the OCR text of one cropped region (already
uppercased and space-joined): normalise misreads, then right-only ⇒ `"_OD"`,
left-only ⇒ `"_OS"`, both ⇒ tie-break on `od_pos < os_pos`, neither ⇒ `""`
(continue with the next region). -/
def decideEyeFromText (raw : List Char) : String :=
  let text := normalizeOcrText raw
  let has_od := containsSub ("OD".toList) text || containsSub ("RIGHT".toList) text
  let has_os := containsSub ("OS".toList) text || containsSub ("LEFT".toList) text
  if has_od && !has_os then "_OD"
  else if has_os && !has_od then "_OS"
  else if has_od && has_os then
    if posLt (odPosIn text) (osPosIn text) then "_OD" else "_OS"
  else ""

/-- The region loop of `detect_eye_from_oct_image` (lines 80-120), given the
OCR text recognised in each candidate region in priority order: return the
first region's verdict that is not empty.  (A region whose OCR raises is
indistinguishable from one whose text yields no verdict.) -/
def detect_eye_from_oct_image : List (List Char) → String
  | [] => ""
  | t :: rest =>
    let d := decideEyeFromText t
    if d ≠ "" then d else detect_eye_from_oct_image rest

/-- Document-level context of the OCT eye cascade: whether the first page's
plain text mentions OD/right-eye or OS/left-eye tokens (lines 211-213), and
the OCR text of the rendered first page's top-right crop used by
`detect_eye_from_pdf_page` (lines 279-337). -/
structure OctDocCtx where
  pageHasOD : Bool
  pageHasOS : Bool
  pageRenderText : List Char
deriving DecidableEq

/-- One OCT frame's OCR inputs: the text recognised in each of the four
candidate regions (right corner, standard, extended, full top; lines 63-77),
plus whether the frame sits on the first page. -/
structure OctFrame where
  rcText : List Char
  stdText : List Char
  extText1 : List Char
  extText2 : List Char
  isFirstPage : Bool
deriving DecidableEq

/-- Result of the per-frame eye resolution (lines 197-229): the label used
for this frame, the document cache afterwards, the page-render flag
afterwards, and how many OCR invocations this frame made. -/
structure OctStepResult where
  eye_label : String
  cache : Option String
  tried : Bool
  ocrCalls : Nat
deriving DecidableEq

/-- The per-frame eye resolution of `extract_oct_images_from_pdf`
(lines 197-229): use the cached document-level label when present (no OCR);
otherwise run the standard-region OCR, then the extended-region OCR, then
(first page only) the page-text scan, then (once per document, first page
only) the rendered-page OCR; cache the first nonempty verdict. -/
def octEyeStep (ctx : OctDocCtx) (pdf_eye_label : Option String)
    (tried_pdf_page_render : Bool) (f : OctFrame) : OctStepResult :=
  match pdf_eye_label with
  | some lbl => ⟨lbl, some lbl, tried_pdf_page_render, 0⟩
  | none =>
    let e1 := detect_eye_from_oct_image [f.rcText, f.stdText]
    let n1 := 1
    let e2n2 : String × Nat :=
      if e1 = "" then
        (detect_eye_from_oct_image [f.rcText, f.stdText, f.extText1, f.extText2], n1 + 1)
      else (e1, n1)
    let e2 := e2n2.1
    let n2 := e2n2.2
    let e3 :=
      if e2 = "" ∧ f.isFirstPage then
        (if ctx.pageHasOD ∧ ¬ctx.pageHasOS then "_OD"
         else if ctx.pageHasOS ∧ ¬ctx.pageHasOD then "_OS"
         else "")
      else e2
    let step4 : String × Bool × Nat :=
      if e3 = "" ∧ ¬tried_pdf_page_render ∧ f.isFirstPage then
        (decideEyeFromText ctx.pageRenderText, true, n2 + 1)
      else (e3, tried_pdf_page_render, n2)
    let e4 := step4.1
    let cache2 : Option String := if e4 ≠ "" then some e4 else none
    ⟨e4, cache2, step4.2.1, step4.2.2⟩

/-- The frame loop of one document (lines 180-229 restricted to the eye
logic): thread the cache and the page-render flag through the frames, and
record for each frame the eye label used and the number of OCR invocations
made. -/
def octProcessFrames (ctx : OctDocCtx) :
    Option String → Bool → List OctFrame → List (String × Nat)
  | _, _, [] => []
  | cache, tried, f :: rest =>
    let r := octEyeStep ctx cache tried f
    (r.eye_label, r.ocrCalls) :: octProcessFrames ctx r.cache r.tried rest

/-- Modality resolution as claim C1 words it: ICGA if the ICGA count strictly
exceeds the FFA count; else FFA+IR if both the FFA and IR counts are
positive; else FFA if the FFA count is positive; else IR if the IR count is
positive; else MIXED.  (Spec-side definition, to be compared with
`analyze_pdf_info`.) -/
def specModalityResolution (fa icga ir : Nat) : PdfType :=
  if icga > fa then .ICGA
  else if fa > 0 ∧ ir > 0 then .FFA_IR
  else if fa > 0 then .FFA
  else if ir > 0 then .IR
  else .MIXED

/-- C1: for every document with at least one positive keyword count,
`analyze_pdf_info` resolves the modality exactly as the specification's
cascade states, and in particular a document with FFA count above a positive
ICGA count is never classified ICGA (it gets FFA or FFA+IR). -/
theorem C1_modality_resolution (inp : ClassifierInput) (thr : ℚ)
    (hpos : inp.fa_count > 0 ∨ inp.icga_count > 0 ∨ inp.ir_count > 0) :
    (analyze_pdf_info inp thr).map PdfInfo.type
      = some (specModalityResolution inp.fa_count inp.icga_count inp.ir_count)
    ∧ (inp.fa_count > inp.icga_count → inp.icga_count > 0 →
        (analyze_pdf_info inp thr).map PdfInfo.type = some PdfType.FFA
        ∨ (analyze_pdf_info inp thr).map PdfInfo.type = some PdfType.FFA_IR) := by
  have hmain : (analyze_pdf_info inp thr).map PdfInfo.type
      = some (specModalityResolution inp.fa_count inp.icga_count inp.ir_count) := by
    simp only [analyze_pdf_info, specModalityResolution]
    rw [if_pos hpos]
    simp only [Option.map_some']
    congr 1
    split_ifs <;> first | rfl | omega
  refine ⟨hmain, fun h1 h2 => ?_⟩
  rw [hmain]
  simp only [specModalityResolution]
  split_ifs <;> first | exact Or.inl rfl | exact Or.inr rfl | omega

theorem C1_modality_resolution_witness :
    ((3 : Nat) > 0 ∨ (1 : Nat) > 0 ∨ (0 : Nat) > 0)
    ∧ (analyze_pdf_info ⟨3, 1, 0, [], [], false, 0, 0⟩ 80).map PdfInfo.type
        = some (specModalityResolution 3 1 0) := by
  refine ⟨by decide, ?_⟩
  exact (C1_modality_resolution ⟨3, 1, 0, [], [], false, 0, 0⟩ 80 (by decide)).1

/-- C2: a document whose ICGA keyword count strictly exceeds its (positive)
FFA keyword count is classified ICGA, and `extract_ffa_images_from_pdf`
returns status `skipped` (not `error`) without emitting any frame. -/
theorem C2_icga_documents_skipped (doc : PdfDoc) (thr : ℚ) (extract_ir : Bool)
    (idx : Nat) (h1 : doc.cls.icga_count > doc.cls.fa_count)
    (h2 : doc.cls.icga_count > 0) :
    (analyze_pdf_info doc.cls thr).map PdfInfo.type = some PdfType.ICGA
    ∧ (extract_ffa_images_from_pdf doc thr extract_ir idx).status = ExtractStatus.skipped
    ∧ (extract_ffa_images_from_pdf doc thr extract_ir idx).status ≠ ExtractStatus.error
    ∧ (extract_ffa_images_from_pdf doc thr extract_ir idx).outputs = []
    ∧ (extract_ffa_images_from_pdf doc thr extract_ir idx).num_images = 0 := by
  have hpos : doc.cls.fa_count > 0 ∨ doc.cls.icga_count > 0 ∨ doc.cls.ir_count > 0 :=
    Or.inr (Or.inl h2)
  have hex : ∃ info, analyze_pdf_info doc.cls thr = some info ∧ info.type = PdfType.ICGA := by
    simp only [analyze_pdf_info]
    rw [if_pos hpos]
    refine ⟨_, rfl, ?_⟩
    simp only
    rw [if_pos ⟨h2, h1⟩]
  obtain ⟨info, hana, htype⟩ := hex
  have hmap : (analyze_pdf_info doc.cls thr).map PdfInfo.type = some PdfType.ICGA := by
    rw [hana, Option.map_some', htype]
  refine ⟨hmap, ?_, ?_, ?_, ?_⟩ <;>
    simp [extract_ffa_images_from_pdf, hana, htype]

theorem C2_icga_documents_skipped_witness :
    ((1 : Nat) > 0 ∧ (1 : Nat) > 0)
    ∧ (extract_ffa_images_from_pdf ⟨⟨0, 1, 0, [], [], false, 0, 0⟩, []⟩ 80 false 1).status
        = ExtractStatus.skipped := by
  refine ⟨by decide, ?_⟩
  exact (C2_icga_documents_skipped ⟨⟨0, 1, 0, [], [], false, 0, 0⟩, []⟩ 80 false 1
    (by decide) (by decide)).2.1

/-- C10: `analyze_pdf_info` never returns modality MIXED: when some keyword
count is positive the resolution selects ICGA, FFA+IR, FFA or IR (the MIXED
branch is unreachable), and the brightness fallback only returns FFA or
UNKNOWN. -/
theorem C10_mixed_unreachable (inp : ClassifierInput) (thr : ℚ) (info : PdfInfo)
    (h : analyze_pdf_info inp thr = some info) :
    info.type ≠ PdfType.MIXED
    ∧ ((inp.fa_count > 0 ∨ inp.icga_count > 0 ∨ inp.ir_count > 0) →
        info.type = PdfType.ICGA ∨ info.type = PdfType.FFA_IR
        ∨ info.type = PdfType.FFA ∨ info.type = PdfType.IR)
    ∧ (¬(inp.fa_count > 0 ∨ inp.icga_count > 0 ∨ inp.ir_count > 0) →
        info.type = PdfType.FFA ∨ info.type = PdfType.UNKNOWN) := by
  simp only [analyze_pdf_info] at h
  by_cases hpos : inp.fa_count > 0 ∨ inp.icga_count > 0 ∨ inp.ir_count > 0
  · rw [if_pos hpos] at h
    cases Option.some.inj h
    refine ⟨?_, fun _ => ?_, fun hneg => absurd hpos hneg⟩
    · simp only
      split_ifs <;> (try simp) <;> omega
    · simp only
      split_ifs <;> (try tauto) <;> exfalso <;> omega
  · rw [if_neg hpos] at h
    by_cases himg : inp.page0ImageCount < 3
    · rw [if_pos himg] at h
      exact absurd h (by simp)
    · rw [if_neg himg] at h
      cases Option.some.inj h
      refine ⟨?_, fun hp => absurd hp hpos, fun _ => ?_⟩
      · simp only
        split_ifs <;> simp
      · simp only
        split_ifs <;> tauto

theorem C10_mixed_unreachable_witness :
    analyze_pdf_info ⟨1, 0, 0, [], [], false, 0, 0⟩ 80
      = some ⟨PdfType.FFA, EyeStr.unknown, true, false, false, 1, 0, 0, false⟩
    ∧ (⟨PdfType.FFA, EyeStr.unknown, true, false, false, 1, 0, 0, false⟩ : PdfInfo).type
        ≠ PdfType.MIXED := by
  refine ⟨by decide, ?_⟩
  exact (C10_mixed_unreachable ⟨1, 0, 0, [], [], false, 0, 0⟩ 80 _ (by decide)).1

theorem containsSub_infix_iff (sub s : List Char) :
    containsSub sub s = true ↔ sub <:+: s := by
  induction s with
  | nil =>
    simp [containsSub, List.isEmpty_iff, List.infix_nil]
  | cons c rest ih =>
    simp only [containsSub, Bool.or_eq_true, List.isPrefixOf_iff_prefix, ih,
      List.infix_cons_iff]

theorem C3_helper_ratio (w h : Nat) :
    (if h > 0 then (w : ℚ) / (h : ℚ) else 0) = (w : ℚ) / (h : ℚ) := by
  by_cases h0 : h > 0
  · rw [if_pos h0]
  · rw [if_neg h0]
    have hz : h = 0 := by omega
    subst hz
    simp

/-- C3: the combined-frame detector fires exactly when the frame is at least
1000 px wide and either its width/height ratio lies in `[1.8, 2.2]` or the
classifier counted both FA and ICGA keywords, both positive, with difference
at most 1; when it fires, the crop is the left half `(0,0)-(width/2,height)`
and the output name of a combined frame carries the `_combine` marker just
before the extension. -/
theorem C3_combined_detector (w h : Nat) (inp : ClassifierInput) (thr : ℚ)
    (info : PdfInfo) (hinfo : analyze_pdf_info inp thr = some info) :
    (is_fa_icga_combined_image w h (some info) = true ↔
      (w ≥ 1000 ∧
        (((1.8 : ℚ) ≤ (w : ℚ) / (h : ℚ) ∧ (w : ℚ) / (h : ℚ) ≤ (2.2 : ℚ))
          ∨ (info.fa_count > 0 ∧ info.icga_count > 0
              ∧ ((info.fa_count : ℤ) - (info.icga_count : ℤ)).natAbs ≤ 1))))
    ∧ crop_fa_box w h = (0, 0, w / 2, h)
    ∧ crop_fa_size w h = (w / 2, h)
    ∧ (∀ eye label i p n ext, ∃ stem,
        standardOutputName eye i p label true n ext = stem ++ "_combine" ++ "." ++ ext
        ∧ standardOutputName eye i p label false n ext = stem ++ "." ++ ext) := by
  have hpdfb : combinedPdfBranch info = true ↔
      (info.fa_count > 0 ∧ info.icga_count > 0
        ∧ ((info.fa_count : ℤ) - (info.icga_count : ℤ)).natAbs ≤ 1) := by
    simp only [analyze_pdf_info] at hinfo
    by_cases hpos : inp.fa_count > 0 ∨ inp.icga_count > 0 ∨ inp.ir_count > 0
    · rw [if_pos hpos] at hinfo
      cases Option.some.inj hinfo
      simp only [combinedPdfBranch, Bool.and_eq_true, decide_eq_true_eq]
      tauto
    · rw [if_neg hpos] at hinfo
      by_cases himg : inp.page0ImageCount < 3
      · rw [if_pos himg] at hinfo
        exact absurd hinfo (by simp)
      · rw [if_neg himg] at hinfo
        cases Option.some.inj hinfo
        simp [combinedPdfBranch]
  refine ⟨?_, rfl, rfl, ?_⟩
  · simp only [is_fa_icga_combined_image, C3_helper_ratio, Bool.and_eq_true,
      Bool.or_eq_true, decide_eq_true_eq, hpdfb]
    tauto
  · intro eye label i p n ext
    by_cases hl : label = ""
    · subst hl
      refine ⟨eye ++ "_pdf" ++ toString i ++ "_page" ++ toString (p + 1)
        ++ "_img" ++ toString n, ?_, ?_⟩
      · simp [standardOutputName]
      · simp [standardOutputName]
    · refine ⟨eye ++ "_pdf" ++ toString i ++ "_page" ++ toString (p + 1)
        ++ "_" ++ label, ?_, ?_⟩
      · simp [standardOutputName, hl]
      · simp [standardOutputName, hl]

theorem C3_combined_detector_witness :
    analyze_pdf_info ⟨2, 2, 0, [], [], false, 0, 0⟩ 80
      = some ⟨PdfType.FFA, EyeStr.unknown, true, true, false, 2, 2, 0, false⟩
    ∧ (is_fa_icga_combined_image 1200 900
        (some ⟨PdfType.FFA, EyeStr.unknown, true, true, false, 2, 2, 0, false⟩) = true ↔
      (1200 ≥ 1000 ∧
        (((1.8 : ℚ) ≤ (1200 : ℚ) / (900 : ℚ) ∧ (1200 : ℚ) / (900 : ℚ) ≤ (2.2 : ℚ))
          ∨ ((2 : Nat) > 0 ∧ (2 : Nat) > 0 ∧ (((2 : Nat) : ℤ) - ((2 : Nat) : ℤ)).natAbs ≤ 1)))) := by
  refine ⟨by decide, ?_⟩
  exact (C3_combined_detector 1200 900 ⟨2, 2, 0, [], [], false, 0, 0⟩ 80 _ (by decide)).1

theorem C7_counterexample :
    analyze_pdf_info ⟨1, 1, 0, [], [], false, 0, 0⟩ 80
      = some ⟨PdfType.FFA, EyeStr.unknown, true, true, false, 1, 1, 0, false⟩
    ∧ is_fa_icga_combined_image 2000 300
        (some ⟨PdfType.FFA, EyeStr.unknown, true, true, false, 1, 1, 0, false⟩) = true
    ∧ crop_fa_size 2000 300 = (1000, 300)
    ∧ is_fa_icga_combined_image 1000 300
        (some ⟨PdfType.FFA, EyeStr.unknown, true, true, false, 1, 1, 0, false⟩) = true := by
  refine ⟨by decide, ?_, by decide, ?_⟩ <;>
    norm_num [is_fa_icga_combined_image, combinedPdfBranch]

/-- C7 (amended): combined-frame splitting is not always idempotent.  After
the detector fires on a frame and the left half (width `w / 2`) is cropped,
re-running the detector with the same classification fires again exactly when
the classifier branch holds (both counts positive, difference ≤ 1) and the
cropped width is still at least 1000; the aspect-ratio branch alone can never
re-fire, and any detector-positive frame narrower than 2000 px is never
re-split. -/
theorem C7_split_retrigger (w h : Nat) (info : PdfInfo)
    (hc : is_fa_icga_combined_image w h (some info) = true) :
    (is_fa_icga_combined_image (w / 2) h (some info) = true ↔
      (combinedPdfBranch info = true ∧ 1000 ≤ w / 2))
    ∧ (w < 2000 → is_fa_icga_combined_image (w / 2) h (some info) = false) := by
  have hsmall : ∀ (w' : Nat), ¬ 1000 ≤ w' →
      is_fa_icga_combined_image w' h (some info) = false := by
    intro w' hw
    cases hdet : is_fa_icga_combined_image w' h (some info) with
    | false => rfl
    | true =>
      simp only [is_fa_icga_combined_image, Bool.and_eq_true, decide_eq_true_eq] at hdet
      exact absurd hdet.2 hw
  refine ⟨?_, fun hw2000 => hsmall _ (by omega)⟩
  by_cases hb : combinedPdfBranch info = true
  · constructor
    · intro h2
      simp only [is_fa_icga_combined_image, Bool.and_eq_true, decide_eq_true_eq] at h2
      exact ⟨hb, h2.2⟩
    · rintro ⟨-, hw⟩
      simp only [is_fa_icga_combined_image, Bool.and_eq_true, Bool.or_eq_true,
        decide_eq_true_eq]
      exact ⟨Or.inr hb, hw⟩
  · simp only [is_fa_icga_combined_image, Bool.and_eq_true, Bool.or_eq_true,
      decide_eq_true_eq] at hc
    obtain ⟨hor, hlarge⟩ := hc
    rcases hor with hsz | hpdf
    · obtain ⟨hr1, hr2⟩ := hsz
      have hpos : 0 < h := by
        by_contra h0
        rw [if_neg h0] at hr1
        norm_num at hr1
      rw [if_pos hpos] at hr1 hr2
      constructor
      · intro h2
        exfalso
        simp only [is_fa_icga_combined_image, Bool.and_eq_true, Bool.or_eq_true,
          decide_eq_true_eq] at h2
        rcases h2.1 with ⟨hr1', -⟩ | hpdf'
        · rw [if_pos hpos] at hr1'
          have hle : ((w / 2 : Nat) : ℚ) ≤ (w : ℚ) / 2 := Nat.cast_div_le
          have hhpos : (0 : ℚ) < (h : ℚ) := by exact_mod_cast hpos
          have hstep : ((w / 2 : Nat) : ℚ) / (h : ℚ) ≤ ((w : ℚ) / 2) / (h : ℚ) := by
            gcongr
          have heq : ((w : ℚ) / 2) / (h : ℚ) = ((w : ℚ) / (h : ℚ)) / 2 := by
            rw [div_div, div_div, mul_comm]
          linarith
        · exact hb hpdf'
      · rintro ⟨hb2, -⟩
        exact absurd hb2 hb
    · exact absurd hpdf hb

theorem C7_split_retrigger_witness :
    is_fa_icga_combined_image 1998 999
      (some ⟨PdfType.FFA, EyeStr.unknown, true, false, false, 3, 0, 0, false⟩) = true
    ∧ is_fa_icga_combined_image (1998 / 2) 999
      (some ⟨PdfType.FFA, EyeStr.unknown, true, false, false, 3, 0, 0, false⟩) = false := by
  have h1 : is_fa_icga_combined_image 1998 999
      (some ⟨PdfType.FFA, EyeStr.unknown, true, false, false, 3, 0, 0, false⟩) = true := by
    norm_num [is_fa_icga_combined_image, combinedPdfBranch]
  exact ⟨h1, (C7_split_retrigger 1998 999 _ h1).2 (by decide)⟩

theorem replace2_nil (a b ra rb : Char) : replace2 a b ra rb [] = [] := rfl

theorem replace2_single (a b ra rb c : Char) : replace2 a b ra rb [c] = [c] := rfl

theorem replace2_creates (a b ra rb : Char) (s : List Char)
    (h : [a, b] <:+: s) : [ra, rb] <:+: replace2 a b ra rb s := by
  induction s using replace2.induct a b ra rb with
  | case1 c d rest hcd ih =>
    simp only [replace2, if_pos hcd]
    exact ⟨[], replace2 a b ra rb rest, rfl⟩
  | case2 c d rest hcd ih =>
    simp only [replace2, if_neg hcd]
    have h' : [a, b] <:+: d :: rest := by
      rcases List.infix_cons_iff.mp h with hpre | hrest
      · exfalso
        rcases List.cons_prefix_cons.mp hpre with ⟨h0, hpre1⟩
        rcases List.cons_prefix_cons.mp hpre1 with ⟨h1, -⟩
        exact hcd ⟨h0.symm, h1.symm⟩
      · exact hrest
    exact List.infix_cons_iff.mpr (Or.inr (ih h'))
  | case3 s hs =>
    exfalso
    have hlen := h.length_le
    rcases s with _ | ⟨c, _ | ⟨d, r⟩⟩
    · simp at hlen
    · simp at hlen
    · exact hs c d r rfl

theorem replace2_preserves_OS (a b ra rb : Char)
    (ha1 : a ≠ 'O') (ha2 : a ≠ 'S') (hb : b ≠ 'O') (s : List Char)
    (h : ['O', 'S'] <:+: s) : ['O', 'S'] <:+: replace2 a b ra rb s := by
  induction s using replace2.induct a b ra rb with
  | case1 c d rest hcd ih =>
    simp only [replace2, if_pos hcd]
    obtain ⟨hc, hd⟩ := hcd
    have h' : ['O', 'S'] <:+: rest := by
      rcases List.infix_cons_iff.mp h with hpre | h1
      · exfalso
        rcases List.cons_prefix_cons.mp hpre with ⟨h0, -⟩
        exact ha1 (hc ▸ h0).symm
      · rcases List.infix_cons_iff.mp h1 with hpre | h2
        · exfalso
          rcases List.cons_prefix_cons.mp hpre with ⟨h0, -⟩
          exact hb (hd ▸ h0).symm
        · exact h2
    exact List.infix_cons_iff.mpr
      (Or.inr (List.infix_cons_iff.mpr (Or.inr (ih h'))))
  | case2 c d rest hcd ih =>
    simp only [replace2, if_neg hcd]
    rcases List.infix_cons_iff.mp h with hpre | h1
    · rcases List.cons_prefix_cons.mp hpre with ⟨h0, hpre1⟩
      rcases List.cons_prefix_cons.mp hpre1 with ⟨h1', -⟩
      have hstart : ∃ t, replace2 a b ra rb (d :: rest) = d :: t := by
        cases rest with
        | nil => exact ⟨[], rfl⟩
        | cons e r2 =>
          by_cases hde : d = a ∧ e = b
          · exact absurd (hde.1.symm.trans h1'.symm) ha2
          · simp only [replace2, if_neg hde]
            exact ⟨_, rfl⟩
      obtain ⟨t, ht⟩ := hstart
      rw [ht]
      subst h0
      subst h1'
      exact ⟨[], t, rfl⟩
    · exact List.infix_cons_iff.mpr (Or.inr (ih h1))
  | case3 s hs =>
    rcases s with _ | ⟨c, _ | ⟨d, r⟩⟩
    · exact h
    · exact h
    · exact absurd rfl (hs c d r)

theorem normalize_creates_OS (raw : List Char)
    (h : containsSub ("0S".toList) raw = true) :
    containsSub ("OS".toList) (normalizeOcrText raw) = true := by
  rw [containsSub_infix_iff] at h ⊢
  unfold normalizeOcrText
  apply replace2_preserves_OS 'Q' 'D' 'O' 'D' (by decide) (by decide) (by decide)
  apply replace2_preserves_OS 'Q' 'S' 'O' 'S' (by decide) (by decide) (by decide)
  apply replace2_preserves_OS '0' 'D' 'O' 'D' (by decide) (by decide) (by decide)
  exact replace2_creates '0' 'S' 'O' 'S' raw h

/-- C9 (amended): the OCR decision rule normalises the `0S` misread to `OS`
(a frame whose right-corner OCR text contains `0S` and no right token gets
the left verdict, and the cascade returns it); right-only tokens give right,
left-only give left; when both sides are present the tie-break compares
`od_pos` with `os_pos`, where each side's position is that of its two-letter
code when present and of its word synonym otherwise — not the position of
the side's first-occurring token. -/
theorem C9_ocr_decision_rule :
    (∀ raw rest, containsSub ['0', 'S'] raw = true →
        containsSub ['O', 'D'] (normalizeOcrText raw) = false →
        containsSub ['R', 'I', 'G', 'H', 'T'] (normalizeOcrText raw) = false →
        decideEyeFromText raw = "_OS"
        ∧ detect_eye_from_oct_image (raw :: rest) = "_OS")
    ∧ (∀ raw,
        (containsSub ['O', 'D'] (normalizeOcrText raw) = true
          ∨ containsSub ['R', 'I', 'G', 'H', 'T'] (normalizeOcrText raw) = true) →
        containsSub ['O', 'S'] (normalizeOcrText raw) = false →
        containsSub ['L', 'E', 'F', 'T'] (normalizeOcrText raw) = false →
        decideEyeFromText raw = "_OD")
    ∧ (∀ raw,
        (containsSub ['O', 'S'] (normalizeOcrText raw) = true
          ∨ containsSub ['L', 'E', 'F', 'T'] (normalizeOcrText raw) = true) →
        containsSub ['O', 'D'] (normalizeOcrText raw) = false →
        containsSub ['R', 'I', 'G', 'H', 'T'] (normalizeOcrText raw) = false →
        decideEyeFromText raw = "_OS")
    ∧ (∀ raw,
        (containsSub ['O', 'D'] (normalizeOcrText raw) = true
          ∨ containsSub ['R', 'I', 'G', 'H', 'T'] (normalizeOcrText raw) = true) →
        (containsSub ['O', 'S'] (normalizeOcrText raw) = true
          ∨ containsSub ['L', 'E', 'F', 'T'] (normalizeOcrText raw) = true) →
        decideEyeFromText raw =
          (if posLt (odPosIn (normalizeOcrText raw)) (osPosIn (normalizeOcrText raw)) = true
            then "_OD" else "_OS")) := by
  refine ⟨?_, ?_, ?_, ?_⟩
  · intro raw rest h0s hod hright
    have hos : containsSub ['O', 'S'] (normalizeOcrText raw) = true :=
      normalize_creates_OS raw h0s
    have hdec : decideEyeFromText raw = "_OS" := by
      simp [decideEyeFromText, hod, hright, hos]
    refine ⟨hdec, ?_⟩
    simp [detect_eye_from_oct_image, hdec]
  · rintro raw (hod | hod) hos hleft <;>
      simp [decideEyeFromText, hod, hos, hleft]
  · rintro raw (hos | hos) hod hright <;>
      simp [decideEyeFromText, hos, hod, hright]
  · rintro raw (hod | hod) (hos | hos) <;>
      simp [decideEyeFromText, hod, hos]

theorem C9_counterexample :
    decideEyeFromText ("RIGHT LEFT OD".toList) = "_OS"
    ∧ normalizeOcrText ("RIGHT LEFT OD".toList) = "RIGHT LEFT OD".toList
    ∧ findSub ("RIGHT".toList) ("RIGHT LEFT OD".toList) = some 0
    ∧ findSub ("LEFT".toList) ("RIGHT LEFT OD".toList) = some 6
    ∧ findSub ("OD".toList) ("RIGHT LEFT OD".toList) = some 11
    ∧ findSub ("OS".toList) ("RIGHT LEFT OD".toList) = none := by
  exact ⟨by decide, by decide, by decide, by decide, by decide, by decide⟩

theorem C9_ocr_decision_rule_witness :
    decideEyeFromText ("0S".toList) = "_OS"
    ∧ detect_eye_from_oct_image ["0S".toList, "OD".toList] = "_OS" := by
  have h := (C9_ocr_decision_rule.1 ("0S".toList) ["OD".toList]
    (by decide) (by decide) (by decide))
  exact ⟨h.1, h.2⟩

theorem octProcessFrames_cons (ctx : OctDocCtx) (cache : Option String)
    (tried : Bool) (f : OctFrame) (rest : List OctFrame) :
    octProcessFrames ctx cache tried (f :: rest)
      = ((octEyeStep ctx cache tried f).eye_label,
          (octEyeStep ctx cache tried f).ocrCalls)
        :: octProcessFrames ctx (octEyeStep ctx cache tried f).cache
            (octEyeStep ctx cache tried f).tried rest := rfl

theorem octProcessFrames_cached (ctx : OctDocCtx) (L : String) (tried : Bool)
    (fs : List OctFrame) :
    octProcessFrames ctx (some L) tried fs = fs.map (fun _ => (L, 0)) := by
  induction fs with
  | nil => rfl
  | cons f rest ih => simp [octProcessFrames, octEyeStep, ih]

theorem octEyeStep_cache_of_ne (ctx : OctDocCtx) (cache : Option String)
    (tried : Bool) (f : OctFrame)
    (h : (octEyeStep ctx cache tried f).eye_label ≠ "") :
    (octEyeStep ctx cache tried f).cache
      = some (octEyeStep ctx cache tried f).eye_label := by
  cases cache with
  | some l => rfl
  | none =>
    simp only [octEyeStep] at h ⊢
    rw [if_pos h]

/-- C8: in one document's frame loop, once some frame's cascade yields a
verdict, that verdict is cached and every later frame of the same document
reports the cached verdict with zero OCR invocations. -/
theorem C8_eye_label_cached (ctx : OctDocCtx) (fs : List OctFrame)
    (cache0 : Option String) (tried0 : Bool) (i j : Nat) (lbl : String)
    (calls : Nat) (hij : i < j)
    (hi : (octProcessFrames ctx cache0 tried0 fs)[i]? = some (lbl, calls))
    (hne : lbl ≠ "")
    (hj : j < (octProcessFrames ctx cache0 tried0 fs).length) :
    (octProcessFrames ctx cache0 tried0 fs)[j]? = some (lbl, 0) := by
  induction fs generalizing cache0 tried0 i j with
  | nil => simp [octProcessFrames] at hi
  | cons f rest ih =>
    rw [octProcessFrames_cons] at hi hj ⊢
    cases i with
    | zero =>
      rw [List.getElem?_cons_zero] at hi
      have hpair := Option.some.inj hi
      have hlbl : (octEyeStep ctx cache0 tried0 f).eye_label = lbl :=
        congrArg Prod.fst hpair
      obtain ⟨j', rfl⟩ : ∃ j', j = j' + 1 := ⟨j - 1, by omega⟩
      rw [List.getElem?_cons_succ]
      rw [octEyeStep_cache_of_ne ctx cache0 tried0 f (by rw [hlbl]; exact hne)]
      rw [hlbl, octProcessFrames_cached, List.getElem?_map]
      have hj' : j' < rest.length := by
        rw [List.length_cons,
          octEyeStep_cache_of_ne ctx cache0 tried0 f (by rw [hlbl]; exact hne),
          hlbl, octProcessFrames_cached, List.length_map] at hj
        omega
      rw [List.getElem?_eq_getElem hj']
      rfl
    | succ i' =>
      obtain ⟨j', rfl⟩ : ∃ j', j = j' + 1 := ⟨j - 1, by omega⟩
      rw [List.getElem?_cons_succ] at hi ⊢
      rw [List.length_cons] at hj
      exact ih _ _ i' j' (by omega) hi (by omega)

theorem C8_eye_label_cached_witness :
    (octProcessFrames ⟨false, false, []⟩ none false
        [⟨['O', 'D'], [], [], [], true⟩, ⟨[], [], [], [], true⟩])[0]?
      = some ("_OD", 1)
    ∧ (octProcessFrames ⟨false, false, []⟩ none false
        [⟨['O', 'D'], [], [], [], true⟩, ⟨[], [], [], [], true⟩])[1]?
      = some ("_OD", 0) := by
  refine ⟨by decide, ?_⟩
  exact C8_eye_label_cached ⟨false, false, []⟩
    [⟨['O', 'D'], [], [], [], true⟩, ⟨[], [], [], [], true⟩]
    none false 0 1 "_OD" 1 (by decide) (by decide) (by decide) (by decide)

theorem mem_insertByY0 (x y : Rect) (l : List Rect) :
    x ∈ insertByY0 y l ↔ x = y ∨ x ∈ l := by
  induction l with
  | nil => simp [insertByY0]
  | cons z zs ih =>
    simp only [insertByY0]
    split <;> simp only [List.mem_cons, ih] <;> tauto

theorem mem_sortByY0 (x : Rect) (l : List Rect) :
    x ∈ sortByY0 l ↔ x ∈ l := by
  induction l with
  | nil => simp [sortByY0]
  | cons y ys ih =>
    simp only [sortByY0, List.foldr_cons] at ih ⊢
    rw [mem_insertByY0, ih, List.mem_cons]

theorem groupStripesAux_mem (l : List Rect) :
    ∀ (prev : Rect) (cur : List Rect),
      ∀ g ∈ groupStripesAux prev cur l, ∀ x ∈ g, x ∈ cur ∨ x ∈ l := by
  induction l with
  | nil =>
    intro prev cur g hg x hx
    simp only [groupStripesAux, List.mem_singleton] at hg
    subst hg
    exact Or.inl hx
  | cons item rest ih =>
    intro prev cur g hg x hx
    simp only [groupStripesAux] at hg
    split at hg
    · rcases List.mem_cons.mp hg with rfl | hg'
      · exact Or.inl hx
      · rcases ih item [item] g hg' x hx with h1 | h2
        · rcases List.mem_singleton.mp h1 with rfl
          exact Or.inr (List.mem_cons_self _ _)
        · exact Or.inr (List.mem_cons_of_mem _ h2)
    · rcases ih item (cur ++ [item]) g hg x hx with h1 | h2
      · rcases List.mem_append.mp h1 with h3 | h3
        · exact Or.inl h3
        · rcases List.mem_singleton.mp h3 with rfl
          exact Or.inr (List.mem_cons_self _ _)
      · exact Or.inr (List.mem_cons_of_mem _ h2)

theorem groupStripes_mem (l : List Rect) (g : List Rect) (hg : g ∈ groupStripes l)
    (x : Rect) (hx : x ∈ g) : x ∈ l := by
  cases l with
  | nil => simp [groupStripes] at hg
  | cons first rest =>
    rcases groupStripesAux_mem rest first [first] g hg x hx with h1 | h2
    · rcases List.mem_singleton.mp h1 with rfl
      exact List.mem_cons_self _ _
    · exact List.mem_cons_of_mem _ h2

theorem insertStripe_invariant (pageMid : ℚ) (key : Nat) (r : Rect)
    (assoc : List (Nat × List Rect)) (hkey : stripeColumnOf pageMid r = key)
    (hinv : ∀ kv ∈ assoc, ∀ x ∈ kv.2, stripeColumnOf pageMid x = kv.1) :
    ∀ kv ∈ insertStripe key r assoc, ∀ x ∈ kv.2, stripeColumnOf pageMid x = kv.1 := by
  induction assoc with
  | nil =>
    intro kv hkv x hx
    simp only [insertStripe, List.mem_singleton] at hkv
    subst hkv
    simp only [List.mem_singleton] at hx
    subst hx
    exact hkey
  | cons hd rest ih =>
    obtain ⟨k, rs⟩ := hd
    intro kv hkv x hx
    simp only [insertStripe] at hkv
    by_cases hk : k = key
    · rw [if_pos hk] at hkv
      rcases List.mem_cons.mp hkv with hkv1 | hkv2
      · subst hkv1
        simp only at hx ⊢
        rcases List.mem_append.mp hx with h1 | h1
        · exact hinv (k, rs) (List.mem_cons_self _ _) x h1
        · simp only [List.mem_singleton] at h1
          subst h1
          rw [hkey]
          exact hk.symm
      · exact hinv kv (List.mem_cons_of_mem _ hkv2) x hx
    · rw [if_neg hk] at hkv
      rcases List.mem_cons.mp hkv with hkv1 | hkv2
      · subst hkv1
        exact hinv (k, rs) (List.mem_cons_self _ _) x hx
      · exact ih (fun kv2 h2 => hinv kv2 (List.mem_cons_of_mem _ h2)) kv hkv2 x hx

theorem foldl_preserves {α β : Type} (P : α → Prop) (step : α → β → α)
    (hstep : ∀ a x, P a → P (step a x)) :
    ∀ (l : List β) (a : α), P a → P (l.foldl step a)
  | [], _, h => h
  | x :: rest, a, h => foldl_preserves P step hstep rest (step a x) (hstep a x h)

theorem collectCandidates_column_invariant (pageMid : ℚ) (eye_sel : Bool)
    (images : List PageImage) :
    ∀ kv ∈ (collectCandidates pageMid eye_sel images).stripes_by_column,
      ∀ x ∈ kv.2, stripeColumnOf pageMid x = kv.1 := by
  have hrect : ∀ (mw mh : Nat) (img : PageImage) (a : Candidates) (r : Rect),
      (∀ kv ∈ a.stripes_by_column, ∀ x ∈ kv.2, stripeColumnOf pageMid x = kv.1) →
      (∀ kv ∈ (collectRect pageMid mw mh img a r).stripes_by_column,
        ∀ x ∈ kv.2, stripeColumnOf pageMid x = kv.1) := by
    intro mw mh img a r ha
    unfold collectRect
    by_cases hs : (decide (img.width > 1000) && decide (img.height < 120)) = true
    · rw [if_pos hs]
      exact insertStripe_invariant pageMid _ r a.stripes_by_column rfl ha
    · rw [if_neg hs]
      by_cases hstd : img.width ≥ mw ∧ img.height ≥ mh
      · rw [if_pos hstd]
        exact ha
      · rw [if_neg hstd]
        exact ha
  have himg : ∀ (a : Candidates) (img : PageImage),
      (∀ kv ∈ a.stripes_by_column, ∀ x ∈ kv.2, stripeColumnOf pageMid x = kv.1) →
      (∀ kv ∈ (img.rects.foldl
          (collectRect pageMid (if eye_sel then 200 else 300)
            (if eye_sel then 180 else 300) img) a).stripes_by_column,
        ∀ x ∈ kv.2, stripeColumnOf pageMid x = kv.1) := by
    intro a img ha
    exact foldl_preserves _ _ (hrect _ _ img) img.rects a ha
  unfold collectCandidates
  exact foldl_preserves
    (fun acc : Candidates =>
      ∀ kv ∈ acc.stripes_by_column, ∀ x ∈ kv.2, stripeColumnOf pageMid x = kv.1)
    _ himg images (⟨[], []⟩ : Candidates) (by simp)

/-- C5: stripe placements are grouped per column by sorting on the top-edge
y-coordinate and starting a new group exactly when the gap between
consecutive top edges exceeds 10: two same-column placements form one group
when the gap is at most 10 (e.g. 9) and two groups when it exceeds 10
(e.g. 11), and two placements assigned to different columns never end up in
the same group. -/
theorem C5_stripe_grouping :
    (∀ r1 r2 : Rect, r1.y0 ≤ r2.y0 →
      groupStripes (sortByY0 [r1, r2])
        = if r2.y0 - r1.y0 > 10 then [[r1], [r2]] else [[r1, r2]])
    ∧ (∀ (pageMid : ℚ) (eye_sel : Bool) (images : List PageImage) (a b : Rect),
        stripeColumnOf pageMid a ≠ stripeColumnOf pageMid b →
        ∀ kv ∈ (collectCandidates pageMid eye_sel images).stripes_by_column,
          ∀ g ∈ groupStripes (sortByY0 kv.2), ¬(a ∈ g ∧ b ∈ g)) := by
  constructor
  · intro r1 r2 h12
    have hsort : sortByY0 [r1, r2] = [r1, r2] := by
      simp only [sortByY0, List.foldr_cons, List.foldr_nil, insertByY0]
      rw [if_neg (not_lt.mpr h12)]
    rw [hsort]
    simp only [groupStripes, groupStripesAux, List.cons_append, List.nil_append]
  · intro pageMid eye_sel images a b hab kv hkv g hg hcon
    obtain ⟨hag, hbg⟩ := hcon
    have hmem := collectCandidates_column_invariant pageMid eye_sel images kv hkv
    have ha := hmem a ((mem_sortByY0 a kv.2).mp (groupStripes_mem _ g hg a hag))
    have hb := hmem b ((mem_sortByY0 b kv.2).mp (groupStripes_mem _ g hg b hbg))
    exact hab (ha.trans hb.symm)

theorem C5_stripe_grouping_witness :
    groupStripes (sortByY0 [⟨0, 0, 1200, 5⟩, ⟨0, 9, 1200, 14⟩])
      = [[⟨0, 0, 1200, 5⟩, ⟨0, 9, 1200, 14⟩]]
    ∧ groupStripes (sortByY0 [⟨0, 0, 1200, 5⟩, ⟨0, 11, 1200, 16⟩])
      = [[⟨0, 0, 1200, 5⟩], [⟨0, 11, 1200, 16⟩]]
    ∧ ¬((⟨0, 0, 10, 5⟩ : Rect) ∈ [(⟨0, 0, 10, 5⟩ : Rect)]
        ∧ (⟨500, 0, 510, 5⟩ : Rect) ∈ [(⟨0, 0, 10, 5⟩ : Rect)]) := by
  refine ⟨?_, ?_, ?_⟩
  · rw [C5_stripe_grouping.1 ⟨0, 0, 1200, 5⟩ ⟨0, 9, 1200, 14⟩ (by norm_num)]
    norm_num
  · rw [C5_stripe_grouping.1 ⟨0, 0, 1200, 5⟩ ⟨0, 11, 1200, 16⟩ (by norm_num)]
    norm_num
  · exact C5_stripe_grouping.2 400 false [⟨1200, 100, "png", [⟨0, 0, 10, 5⟩]⟩]
      ⟨0, 0, 10, 5⟩ ⟨500, 0, 510, 5⟩
      (by norm_num [stripeColumnOf])
      (1, [⟨0, 0, 10, 5⟩])
      (by norm_num [collectCandidates, collectRect, insertStripe, stripeColumnOf])
      [⟨0, 0, 10, 5⟩]
      (by norm_num [groupStripes, groupStripesAux, sortByY0, insertByY0])

/-- Comparison against the running minimum distance, `none` standing for
Python's initial `float('inf')`. -/
def distLtOpt (d : ℚ) : Option ℚ → Prop
  | none => True
  | some m => d < m

theorem closestTimestampAux_no_match (pageMid : ℚ) (col : Nat) (cy : ℚ) :
    ∀ (entries : List Span) (minD : Option ℚ) (cur : String),
      (∀ e ∈ entries, tsColumnOf pageMid e = col → searchTs e.text.toList = none) →
      closestTimestampAux pageMid col cy entries minD cur = cur := by
  intro entries
  induction entries with
  | nil => intro minD cur _; rfl
  | cons ts rest ih =>
    intro minD cur hall
    simp only [closestTimestampAux]
    by_cases hcol : tsColumnOf pageMid ts ≠ col
    · rw [if_pos hcol]
      exact ih minD cur (fun e he => hall e (List.mem_cons_of_mem _ he))
    · rw [if_neg hcol]
      have hnone := hall ts (List.mem_cons_self _ _) (not_not.mp hcol)
      rw [hnone]
      split
      · exact ih _ cur (fun e he => hall e (List.mem_cons_of_mem _ he))
      · exact ih minD cur (fun e he => hall e (List.mem_cons_of_mem _ he))

theorem closestTimestampAux_all_match (pageMid : ℚ) (col : Nat) (cy : ℚ) :
    ∀ (entries : List Span) (minD : Option ℚ) (cur : String),
      (∀ e ∈ entries, tsColumnOf pageMid e = col →
        (searchTs e.text.toList).isSome = true) →
      (closestTimestampAux pageMid col cy entries minD cur = cur
        ∧ ∀ e ∈ entries, tsColumnOf pageMid e = col → ¬ distLtOpt (|e.y - cy|) minD)
      ∨ (∃ e ∈ entries, tsColumnOf pageMid e = col
          ∧ distLtOpt (|e.y - cy|) minD
          ∧ (∀ e2 ∈ entries, tsColumnOf pageMid e2 = col → |e.y - cy| ≤ |e2.y - cy|)
          ∧ ∃ g, searchTs e.text.toList = some g
              ∧ closestTimestampAux pageMid col cy entries minD cur
                  = String.mk (replaceChar ':' ['-'] g)) := by
  intro entries
  induction entries with
  | nil =>
    intro minD cur _
    exact Or.inl ⟨rfl, by simp⟩
  | cons ts rest ih =>
    intro minD cur hall
    have hall' : ∀ e ∈ rest, tsColumnOf pageMid e = col →
        (searchTs e.text.toList).isSome = true :=
      fun e he => hall e (List.mem_cons_of_mem _ he)
    simp only [closestTimestampAux]
    by_cases hcol : tsColumnOf pageMid ts ≠ col
    · rw [if_pos hcol]
      rcases ih minD cur hall' with ⟨heq, hnone⟩ | ⟨e, he, hec, hlt, hmin, g, hg, heq⟩
      · refine Or.inl ⟨heq, ?_⟩
        intro e he hc
        rcases List.mem_cons.mp he with rfl | he'
        · exact absurd hc hcol
        · exact hnone e he' hc
      · refine Or.inr ⟨e, List.mem_cons_of_mem _ he, hec, hlt, ?_, g, hg, heq⟩
        intro e2 he2 hc2
        rcases List.mem_cons.mp he2 with rfl | he2'
        · exact absurd hc2 hcol
        · exact hmin e2 he2' hc2
    · rw [if_neg hcol]
      have hcol' : tsColumnOf pageMid ts = col := not_not.mp hcol
      have hsome := hall ts (List.mem_cons_self _ _) hcol'
      obtain ⟨g0, hg0⟩ := Option.isSome_iff_exists.mp hsome
      cases minD with
      | none =>
        rw [if_pos (show (match (none : Option ℚ) with
            | none => true
            | some d => decide (|ts.y - cy| < d)) = true from rfl), hg0]
        rcases ih (some (|ts.y - cy|)) (String.mk (replaceChar ':' ['-'] g0)) hall'
          with ⟨heq, hnone⟩ | ⟨e, he, hec, hlt, hmin, g, hg, heq⟩
        · refine Or.inr ⟨ts, List.mem_cons_self _ _, hcol', trivial, ?_, g0, hg0, heq⟩
          intro e2 he2 hc2
          rcases List.mem_cons.mp he2 with rfl | he2'
          · exact le_refl _
          · have := hnone e2 he2' hc2
            simp only [distLtOpt, not_lt] at this
            exact this
        · refine Or.inr ⟨e, List.mem_cons_of_mem _ he, hec, trivial, ?_, g, hg, heq⟩
          intro e2 he2 hc2
          rcases List.mem_cons.mp he2 with rfl | he2'
          · exact le_of_lt hlt
          · exact hmin e2 he2' hc2
      | some m =>
        by_cases hlt0 : |ts.y - cy| < m
        · rw [if_pos (show (match (some m : Option ℚ) with
              | none => true
              | some d => decide (|ts.y - cy| < d)) = true from by
                simpa using hlt0), hg0]
          rcases ih (some (|ts.y - cy|)) (String.mk (replaceChar ':' ['-'] g0)) hall'
            with ⟨heq, hnone⟩ | ⟨e, he, hec, hlt, hmin, g, hg, heq⟩
          · refine Or.inr ⟨ts, List.mem_cons_self _ _, hcol', hlt0, ?_, g0, hg0, heq⟩
            intro e2 he2 hc2
            rcases List.mem_cons.mp he2 with rfl | he2'
            · exact le_refl _
            · have := hnone e2 he2' hc2
              simp only [distLtOpt, not_lt] at this
              exact this
          · refine Or.inr ⟨e, List.mem_cons_of_mem _ he, hec, lt_trans hlt hlt0, ?_,
              g, hg, heq⟩
            intro e2 he2 hc2
            rcases List.mem_cons.mp he2 with rfl | he2'
            · exact le_of_lt hlt
            · exact hmin e2 he2' hc2
        · rw [if_neg (show ¬ ((match (some m : Option ℚ) with
              | none => true
              | some d => decide (|ts.y - cy| < d)) = true) from by
                simpa using hlt0)]
          rcases ih (some m) cur hall' with ⟨heq, hnone⟩ | ⟨e, he, hec, hlt, hmin, g, hg, heq⟩
          · refine Or.inl ⟨heq, ?_⟩
            intro e he hc
            rcases List.mem_cons.mp he with rfl | he'
            · exact hlt0
            · exact hnone e he' hc
          · refine Or.inr ⟨e, List.mem_cons_of_mem _ he, hec, hlt, ?_, g, hg, heq⟩
            intro e2 he2 hc2
            rcases List.mem_cons.mp he2 with rfl | he2'
            · exact le_of_lt (lt_of_lt_of_le hlt (not_lt.mp hlt0))
            · exact hmin e2 he2' hc2

/-- C6 (amended): provided every same-column timestamp entry matches the
`(MM:SS.mmm)` pattern, the stripe group's timestamp is taken from a
same-column entry whose vertical distance to the group's centre is minimal,
with the colon replaced by a hyphen; and whenever no same-column entry
matches the pattern (in particular when there is no same-column entry at
all), the placeholder `no-time` is used. -/
theorem C6_stripe_timestamp :
    (∀ (pageMid cy : ℚ) (col : Nat) (entries : List Span),
      (∀ e ∈ entries, tsColumnOf pageMid e = col →
        (searchTs e.text.toList).isSome = true) →
      (∃ e0 ∈ entries, tsColumnOf pageMid e0 = col) →
      ∃ e ∈ entries, tsColumnOf pageMid e = col
        ∧ (∀ e2 ∈ entries, tsColumnOf pageMid e2 = col → |e.y - cy| ≤ |e2.y - cy|)
        ∧ ∃ g, searchTs e.text.toList = some g
            ∧ closestTimestamp pageMid col cy entries
                = String.mk (replaceChar ':' ['-'] g))
    ∧ (∀ (pageMid cy : ℚ) (col : Nat) (entries : List Span),
      (∀ e ∈ entries, tsColumnOf pageMid e = col → searchTs e.text.toList = none) →
      closestTimestamp pageMid col cy entries = "no-time") := by
  constructor
  · intro pageMid cy col entries hall hex
    rcases closestTimestampAux_all_match pageMid col cy entries none "no-time" hall
      with ⟨-, hnone⟩ | ⟨e, he, hec, -, hmin, g, hg, heq⟩
    · obtain ⟨e0, he0, hc0⟩ := hex
      exact absurd trivial (hnone e0 he0 hc0)
    · exact ⟨e, he, hec, hmin, g, hg, heq⟩
  · intro pageMid cy col entries hall
    exact closestTimestampAux_no_match pageMid col cy entries none "no-time" hall

theorem C6_counterexample :
    closestTimestamp 100 1 0 [⟨"TIMESTAMP", 0, 0⟩, ⟨"(01:23.456)", 0, 5⟩] = "no-time"
    ∧ tsColumnOf 100 (⟨"(01:23.456)", 0, 5⟩ : Span) = 1
    ∧ (searchTs (("(01:23.456)" : String).toList)).isSome = true := by
  refine ⟨?_, by norm_num [tsColumnOf], by decide⟩
  have hts1 : searchTs ['T', 'I', 'M', 'E', 'S', 'T', 'A', 'M', 'P'] = none := by decide
  have ha0 : |(0 : ℚ) - 0| = 0 := by norm_num
  have ha5 : |(5 : ℚ) - 0| = 5 := by
    rw [abs_of_nonneg] <;> norm_num
  simp only [closestTimestamp, closestTimestampAux, tsColumnOf]
  norm_num [hts1, ha0, ha5]

theorem C6_stripe_timestamp_witness :
    ∃ e ∈ [(⟨"(01:23.456)", 0, 5⟩ : Span)], tsColumnOf 100 e = 1
      ∧ (∀ e2 ∈ [(⟨"(01:23.456)", 0, 5⟩ : Span)],
          tsColumnOf 100 e2 = 1 → |e.y - (0 : ℚ)| ≤ |e2.y - (0 : ℚ)|)
      ∧ ∃ g, searchTs e.text.toList = some g
          ∧ closestTimestamp 100 1 0 [⟨"(01:23.456)", 0, 5⟩]
              = String.mk (replaceChar ':' ['-'] g) := by
  apply C6_stripe_timestamp.1 100 0 1 [⟨"(01:23.456)", 0, 5⟩]
  · intro e he hc
    rw [List.mem_singleton] at he
    subst he
    decide
  · refine ⟨⟨"(01:23.456)", 0, 5⟩, List.mem_singleton.mpr rfl, ?_⟩
    norm_num [tsColumnOf]

/-- Classification result of the C4 scenario document (FA count 3, no ICGA,
no IR, no laterality tokens). -/
def c4info : PdfInfo := ⟨.FFA, .unknown, true, false, false, 3, 0, 0, false⟩

/-- The C4 scenario's text span `"FA 1:30"`, placed at x 10 and a variable
vertical position. -/
def c4span (sy : ℚ) : Span := ⟨"FA 1:30", 10, sy⟩

/-- Placement rectangle of the C4 scenario's single 1200×400 frame, in
column 1 of an 800pt-wide page. -/
def c4rect : Rect := ⟨10, 100, 310, 200⟩

/-- The C4 scenario page. -/
def c4page (sy : ℚ) : Page := ⟨800, 1000, [c4span sy], [⟨1200, 400, "png", [c4rect]⟩]⟩

/-- The C4 scenario document. -/
def c4doc (sy : ℚ) : PdfDoc := ⟨⟨3, 0, 0, [], [], false, 0, 0⟩, [c4page sy]⟩

theorem c4_extract_eval (sy : ℚ) (h : |sy - 100| < 60) :
    extract_ffa_images_from_pdf (c4doc sy) 80 false 1
      = { status := .success, type := some .FFA, eye := .unknown,
          num_images := 1, outputs := ["unknown_pdf1_page1_FA_1:30.png"] } := by
  have hana : analyze_pdf_info (⟨3, 0, 0, [], [], false, 0, 0⟩ : ClassifierInput) 80
      = some c4info := by decide
  have hdc : (c4doc sy).cls = ⟨3, 0, 0, [], [], false, 0, 0⟩ := rfl
  have hdp : (c4doc sy).pages = [c4page sy] := rfl
  have hw : (c4page sy).width = 800 := rfl
  have hh : (c4page sy).height = 1000 := rfl
  have hsp : (c4page sy).spans = [c4span sy] := rfl
  have him : (c4page sy).images = [⟨1200, 400, "png", [c4rect]⟩] := rfl
  have htype : c4info.type = .FFA := rfl
  have heye : c4info.eye = .unknown := rfl
  have hffa : c4info.has_ffa = true := rfl
  have hir : c4info.has_ir = false := rfl
  have hsel : c4info.eye_selected_label = false := rfl
  have hscan : scanSpan (400 : ℚ)
      ⟨[], [], ⟨⟨.unknown, .weak⟩, ⟨.unknown, .weak⟩⟩⟩ (c4span sy)
      = ⟨[], [c4span sy], ⟨⟨.unknown, .weak⟩, ⟨.unknown, .weak⟩⟩⟩ := rfl
  have hcands : collectCandidates (400 : ℚ) false [⟨1200, 400, "png", [c4rect]⟩]
      = ⟨[], [⟨c4rect, 1200, 400, "png", stripeColumnOf (400 : ℚ) c4rect⟩]⟩ := rfl
  have hcol : stripeColumnOf (400 : ℚ) c4rect = 1 := by
    norm_num [stripeColumnOf, c4rect]
  have hdefault : applyDocEyeDefault c4info
      ⟨⟨.unknown, .weak⟩, ⟨.unknown, .weak⟩⟩
      = ⟨⟨.unknown, .weak⟩, ⟨.unknown, .weak⟩⟩ := rfl
  have hd : decide (|sy - 100| < 60) = true := decide_eq_true h
  have hlab : nearestLabel [c4span sy] c4rect.x0 c4rect.y0 = "FA 1:30" := by
    simp [nearestLabel, nearestLabelAux, c4span, c4rect, hd]
  have hclean : cleanLabel "FA 1:30" = "FA_1:30" := by decide
  have hcomb : is_fa_icga_combined_image 1200 400 (some c4info) = false := by
    norm_num [is_fa_icga_combined_image, combinedPdfBranch, c4info]
  have hname : standardOutputName "unknown" 1 0 "FA_1:30" false 1 "png"
      = "unknown_pdf1_page1_FA_1:30.png" := by decide
  have hemit : emitStandard c4info 1 0 [c4span sy]
      ⟨⟨.unknown, .weak⟩, ⟨.unknown, .weak⟩⟩ (0, [])
      ⟨c4rect, 1200, 400, "png", 1⟩
      = (1, ["unknown_pdf1_page1_FA_1:30.png"]) := by
    simp only [emitStandard, hlab, hclean, hcomb, getCol, normalize_eye]
    norm_num [hname]
  simp only [extract_ffa_images_from_pdf, hdc, hana]
  norm_num [htype, heye, hffa, hir, hsel, hdp, processPages, processPage,
    hw, hh, hsp, him, hscan, hcands, hcol, hdefault, hemit, emitStripeColumns]
  rw [if_neg (show ¬ (PdfType.FFA = PdfType.ICGA) from by decide),
    if_neg (show ¬ (PdfType.FFA = PdfType.IR) from by decide)]

/-- C4 (amended): for the scenario document (single page, FA count 3, no
ICGA/IR, one 1200×400 frame in column 1, and the text span `"FA 1:30"`
within 60pt vertical distance of the frame's top-left corner), extraction
with document index 1 succeeds with exactly one standard-path output — but
the label sanitizer keeps the colon (its character class admits `:`), so the
file is named `unknown_pdf1_page1_FA_1:30.png`, not
`unknown_pdf1_page1_FA_1-30.png`. -/
theorem C4_scenario_naming (sy : ℚ) (h : |sy - 100| < 60) :
    (extract_ffa_images_from_pdf (c4doc sy) 80 false 1).status = ExtractStatus.success
    ∧ (extract_ffa_images_from_pdf (c4doc sy) 80 false 1).num_images = 1
    ∧ (extract_ffa_images_from_pdf (c4doc sy) 80 false 1).outputs
        = ["unknown_pdf1_page1_FA_1:30.png"] := by
  rw [c4_extract_eval sy h]
  exact ⟨rfl, rfl, rfl⟩

theorem C4_counterexample :
    (extract_ffa_images_from_pdf (c4doc 100) 80 false 1).outputs
      = ["unknown_pdf1_page1_FA_1:30.png"]
    ∧ (extract_ffa_images_from_pdf (c4doc 100) 80 false 1).num_images = 1
    ∧ (extract_ffa_images_from_pdf (c4doc 100) 80 false 1).status = ExtractStatus.success
    ∧ "unknown_pdf1_page1_FA_1:30.png" ≠ "unknown_pdf1_page1_FA_1-30.png" := by
  have hk := c4_extract_eval 100 (by norm_num)
  rw [hk]
  exact ⟨rfl, rfl, rfl, by decide⟩

theorem C4_scenario_naming_witness :
    (extract_ffa_images_from_pdf (c4doc 130) 80 false 1).status = ExtractStatus.success
    ∧ (extract_ffa_images_from_pdf (c4doc 130) 80 false 1).num_images = 1
    ∧ (extract_ffa_images_from_pdf (c4doc 130) 80 false 1).outputs
        = ["unknown_pdf1_page1_FA_1:30.png"] :=
  C4_scenario_naming 130 (by norm_num)
